import Mathlib

/-!
Verification of `img/c1/convert_to_webp.py`, a batch image-to-WebP
conversion script.  The script is shallowly embedded: the filesystem and
the PIL image library are modelled by an explicit environment `Env`
(directory listing, file sizes, decode results, encode results, deletion
results), and the two Python functions `convert_to_webp` and
`batch_convert`, together with `main`, become total Lean functions over
that environment.  A Python exception that the script catches becomes an
ordinary branch; an exception the script does not catch becomes an
`Except.error` that propagates, mirroring an aborted run.
-/

deriving instance DecidableEq for Except

namespace ConvertToWebp

/-! ## Python string primitives used by the script -/

/-- Model of Python's `str.lower`, character by character. -/
def pyLower (s : String) : String := ⟨s.data.map Char.toLower⟩

/-- Model of Python's `str.endswith`: `suf` is a suffix of `s`. -/
def pyEndsWith (s suf : String) : Bool := suf.data.isSuffixOf s.data

/-- Model of `os.path.join(d, n)` for a directory `d` with no trailing
separator, as produced by the script's `-d` argument. -/
def joinPath (d n : String) : String := d ++ "/" ++ n

/-- The characters of the last path component (after the last `/`),
used by `os.path.splitext`, which only splits inside the basename. -/
def baseNameChars (l : List Char) : List Char :=
  (l.reverse.takeWhile (fun c => c ≠ '/')).reverse

/-- The extension part of `os.path.splitext`: the suffix of the basename
starting at its last dot, provided a non-dot character precedes that dot
(so a leading-dot name such as `.jpg` has no extension). -/
def extChars (l : List Char) : List Char :=
  let b := baseNameChars l
  let r := b.reverse
  let afterDot := r.takeWhile (fun c => c ≠ '.')
  if afterDot.length = r.length then []
  else if (r.drop (afterDot.length + 1)).any (fun c => c ≠ '.') then
    '.' :: afterDot.reverse
  else []

/-- `os.path.splitext(s)[1]` as a string. -/
def pyExtension (s : String) : String := ⟨extChars s.data⟩

/-- `os.path.splitext(s)[0]`: the path with its extension removed. -/
def splitextStem (s : String) : String :=
  ⟨s.data.take (s.data.length - (extChars s.data).length)⟩

/-- The output path the script derives for an input path: stem plus
`.webp`.  Lines 27-29 (inside `convert_to_webp`, via
`os.path.join(os.path.dirname(p), base_name + ".webp")`) and line 107
(inside `batch_convert`, via `os.path.splitext(p)[0] + '.webp'`) compute
this same path for the paths the batch driver passes in. -/
def webpPath (p : String) : String := splitextStem p ++ ".webp"

/-- Model of Python division for the ratio computations: dividing by `0`
raises `ZeroDivisionError`, otherwise the exact rational is returned. -/
def pyDiv (a b : ℚ) : Except String ℚ :=
  if b = 0 then .error "ZeroDivisionError" else .ok (a / b)

/-! ## The PIL image model -/

/-- The pixel-buffer color modes PIL's `Image.open` can attach to an
image decoded from the script's supported input formats
(jpg/jpeg/png/bmp/gif/tiff/tif): bilevel `1`, grayscale `L` (and the
32-bit `I`, `I;16` and float `F` variants), palette `P`, `RGB`, `RGBA`,
grayscale-with-alpha `LA`, `CMYK`, and `YCbCr`. -/
inductive Mode where
  | one | L | P | RGB | RGBA | LA | CMYK | YCbCr | I | I16 | F
deriving DecidableEq, Repr

/-- Whether a mode carries an alpha channel (PIL: the mode name contains
an `A` band).  Among the decodable modes these are `RGBA` and `LA`. -/
def Mode.hasAlpha : Mode → Bool
  | .RGBA => true
  | .LA => true
  | _ => false

/-- Lines 32-36: mode normalization before saving.
`if img.mode in ('RGBA', 'LA'): img = img.convert('RGBA')`
`elif img.mode not in ('RGB', 'RGBA'): img = img.convert('RGB')`. -/
def normalizeMode (m : Mode) : Mode :=
  if m = .RGBA ∨ m = .LA then .RGBA
  else if ¬(m = .RGB ∨ m = .RGBA) then .RGB
  else m

/-- The keyword arguments the script passes to `PIL.Image.save` (the
`format='WebP'` argument is always present and is left implicit). -/
structure SaveParams where
  lossless : Bool
  quality : Option Int
  method : Option Nat
deriving DecidableEq, Repr

/-- The WebP encoder's compression-effort (`method`) levels exposed by
libwebp, in increasing effort order.  Modelled from the spec: the
encoder effort scale runs 0..6. -/
def webpMethodLevels : List Nat := [0, 1, 2, 3, 4, 5, 6]

/-- The highest WebP compression-effort level. -/
def webpMethodMax : Nat := 6

/-- Lines 39-42: the save keywords chosen per branch.
`img.save(output_path, format='WebP', lossless=True)` when lossless,
`img.save(output_path, format='WebP', quality=quality, method=6)`
otherwise. -/
def saveParamsFor (lossless : Bool) (quality : Int) : SaveParams :=
  if lossless then
    { lossless := true, quality := none, method := none }
  else
    { lossless := false, quality := some quality, method := some 6 }

/-! ## The environment: filesystem and codec oracle -/

/-- One `os.listdir` entry: its name and whether it is a regular file
(as opposed to a subdirectory or other non-file entry). -/
structure DirEntry where
  name : String
  isFile : Bool
deriving DecidableEq, Repr

/-- The ambient filesystem and codec behavior for one run.
`dirExists` is `os.path.exists` on the target directory; `listdir` is
`os.listdir` on it (`Except.error` models the exception raised when the
path is not a directory); `size p` is `os.path.getsize p` (`none`
models the `OSError` raised when `p` cannot be stat'ed, e.g. a dangling
symlink); `decode p` is `PIL.Image.open p` (`none` models a decode
exception); `save p m params` is `img.save` of an image with normalized
mode `m` to path `p` (`some b` is the written content, abstracted to a
numeric identifier, `none` models an encode/write exception);
`removeOk p` tells whether `os.remove p` succeeds. -/
structure Env where
  dirExists : Bool
  listdir : Except String (List DirEntry)
  size : String → Option Nat
  decode : String → Option Mode
  save : String → Mode → SaveParams → Option Nat
  removeOk : String → Bool

/-! ## convert_to_webp (lines 13-59) -/

/-- The observable outcome of one `convert_to_webp` call: the returned
boolean, the per-file compression ratio it printed (if it got that far),
and the content written to the output path (if the save was reached and
succeeded). -/
structure ConvOutcome where
  success : Bool
  ratio : Option ℚ
  written : Option Nat
deriving DecidableEq, Repr

/-- Lines 13-59: open the image, normalize the mode, save as WebP, stat
both files, compute the printed ratio `(1 - new_size / original_size) *
100`, and return `True`; any exception along the way (decode failure,
save failure, stat failure, or the `ZeroDivisionError` from a zero-byte
original) is caught by the `except` clause and yields `False`. -/
def convert_to_webp (env : Env) (input : String) (quality : Int)
    (lossless : Bool) : ConvOutcome :=
  match env.decode input with
  | none => ⟨false, none, none⟩
  | some mode =>
    let output_path := webpPath input
    let img := normalizeMode mode
    match env.save output_path img (saveParamsFor lossless quality) with
    | none => ⟨false, none, none⟩
    | some written =>
      match env.size input with
      | none => ⟨false, none, some written⟩
      | some original_size =>
        match env.size output_path with
        | none => ⟨false, none, some written⟩
        | some new_size =>
          match pyDiv (new_size : ℚ) (original_size : ℚ) with
          | .error _ => ⟨false, none, some written⟩
          | .ok d => ⟨true, some ((1 - d) * 100), some written⟩

/-! ## batch_convert (lines 61-127) -/

/-- The batch configuration handed to `batch_convert`. -/
structure Config where
  directory : String
  quality : Int
  lossless : Bool
  keepOriginal : Bool

/-- Line 72: `supported_formats = ('.jpg', '.jpeg', '.png', '.bmp',
'.gif', '.tiff', '.tif')`. -/
def supportedFormats : List String :=
  [".jpg", ".jpeg", ".png", ".bmp", ".gif", ".tiff", ".tif"]

/-- Lines 76-78: the eligibility test the scan applies to a directory
entry — `file.lower().endswith(supported_formats)`.  Note that only the
name is consulted: whether the entry is a regular file is never
checked. -/
def codeEligible (e : DirEntry) : Bool :=
  supportedFormats.any (fun ext => pyEndsWith (pyLower e.name) ext)

/-- The eligibility test as the spec words it (C5): the entry is a file
and its extension, compared case-insensitively, is one of the supported
ones.  Stated for comparison with `codeEligible`. -/
def specEligible (e : DirEntry) : Bool :=
  e.isFile && supportedFormats.contains (pyLower (pyExtension e.name))

/-- Lines 74-78: the `image_files` list — the eligible entries joined
onto the directory path, in listing order. -/
def imageFilesOf (cfg : Config) (es : List DirEntry) : List String :=
  (es.filter codeEligible).map (fun e => joinPath cfg.directory e.name)

/-- Line 96: the in-loop skip test `image_file.lower().endswith('.webp')`. -/
def skips (f : String) : Bool := pyEndsWith (pyLower f) ".webp"

/-- The mutable loop state of `batch_convert`, with the per-file event
lists the loop's prints record made explicit.  The script's
`success_count` is `succeeded.length`, its failure count is implicit as
`image_files.length - success_count` (= `failed.length` plus the always
empty `skipped.length`). -/
structure BatchState where
  skipped : List String
  succeeded : List String
  failed : List String
  removed : List String
  removeFailed : List String
  totalOriginal : Nat
  totalNew : Nat
deriving DecidableEq, Repr

/-- The loop state before the first iteration (lines 90-92). -/
def initState : BatchState :=
  { skipped := [], succeeded := [], failed := [], removed := [],
    removeFailed := [], totalOriginal := 0, totalNew := 0 }

/-- Lines 94-117: one iteration of the batch loop.  The `.webp` skip
check comes first; then `os.path.getsize(image_file)` runs OUTSIDE any
`try`, so its failure is an uncaught exception (`Except.error`) that
aborts the whole batch; then the converter runs; on success the webp
file is stat'ed (guarded by `os.path.exists`) and, when the original is
not kept, `os.remove` is attempted inside its own `try`/`except`. -/
def processFile (env : Env) (cfg : Config) (st : BatchState)
    (f : String) : Except String BatchState :=
  if skips f then
    .ok { st with skipped := st.skipped ++ [f] }
  else
    match env.size f with
    | none => .error ("OSError: getsize " ++ f)
    | some original_size =>
      let st1 := { st with totalOriginal := st.totalOriginal + original_size }
      if (convert_to_webp env f cfg.quality cfg.lossless).success then
        let st2 := { st1 with succeeded := st1.succeeded ++ [f] }
        let webp_file := webpPath f
        match env.size webp_file with
        | none => .ok st2
        | some new_size =>
          let st3 := { st2 with totalNew := st2.totalNew + new_size }
          if cfg.keepOriginal then .ok st3
          else if env.removeOk f then
            .ok { st3 with removed := st3.removed ++ [f] }
          else
            .ok { st3 with removeFailed := st3.removeFailed ++ [f] }
      else
        .ok { st1 with failed := st1.failed ++ [f] }

/-- The batch loop over `image_files`, propagating the one uncaught
exception `processFile` can raise. -/
def processFiles (env : Env) (cfg : Config) :
    List String → BatchState → Except String BatchState
  | [], st => .ok st
  | f :: fs, st =>
    match processFile env cfg st f with
    | .error e => .error e
    | .ok st1 => processFiles env cfg fs st1

/-- What a completed `batch_convert` reports: the eligible set, the
final loop state, and the total compression ratio printed in the
summary (lines 123-127) — present only when `total_original_size > 0`. -/
structure BatchResult where
  imageFiles : List String
  state : BatchState
  totalRatio : Option ℚ
deriving DecidableEq, Repr

/-- Lines 61-127: list the directory, build `image_files`, return early
with nothing processed when it is empty (lines 80-83), otherwise run
the loop and compute the summary.  An uncaught exception anywhere
(listdir on a non-directory, or a failing `getsize` at line 100)
propagates as `Except.error`. -/
def batch_convert (env : Env) (cfg : Config) :
    Except String BatchResult :=
  match env.listdir with
  | .error e => .error e
  | .ok entries =>
    let image_files := imageFilesOf cfg entries
    if image_files.isEmpty then
      .ok { imageFiles := [], state := initState, totalRatio := none }
    else
      match processFiles env cfg image_files initState with
      | .error e => .error e
      | .ok st =>
        .ok { imageFiles := image_files, state := st,
              totalRatio :=
                if 0 < st.totalOriginal then
                  some ((1 - (st.totalNew : ℚ) / (st.totalOriginal : ℚ)) * 100)
                else none }

/-! ## main (lines 129-151) -/

/-- The parsed command-line arguments. -/
structure Args where
  directory : String
  quality : Int
  lossless : Bool
  removeOriginal : Bool

/-- Line 132: argparse's `choices=range(1, 101)` check on `--quality`. -/
def validQuality (q : Int) : Bool := 1 ≤ q && q ≤ 100

/-- How one process run ends: a normal exit with a status code, or an
uncaught exception traceback. -/
inductive RunOutcome where
  | exited (code : Nat)
  | uncaught (e : String)
deriving DecidableEq, Repr

/-- Lines 146-151: the configuration `main` hands to `batch_convert`
(`keep_original = not args.remove_original`). -/
def cfgOf (a : Args) : Config :=
  { directory := a.directory, quality := a.quality,
    lossless := a.lossless, keepOriginal := !a.removeOriginal }

/-- Lines 129-151: argparse rejects an out-of-range quality with a
usage error (exit status 2) before anything else runs; a missing target
directory exits with status 1 before any scan; otherwise the batch runs
and the process exits 0 on completion.  The second component is the
batch result when the batch ran to completion, `none` otherwise. -/
def main (env : Env) (a : Args) : RunOutcome × Option BatchResult :=
  if validQuality a.quality then
    if env.dirExists then
      match batch_convert env (cfgOf a) with
      | .ok r => (.exited 0, some r)
      | .error e => (.uncaught e, none)
    else (.exited 1, none)
  else (.exited 2, none)

/-! ## Closed-form description of the batch loop -/

/-- Whether `convert_to_webp` returns `True` for this file under this
environment and configuration. -/
def convOk (env : Env) (cfg : Config) (f : String) : Bool :=
  (convert_to_webp env f cfg.quality cfg.lossless).success

/-- A processed (non-skipped) file whose conversion succeeded. -/
def succF (env : Env) (cfg : Config) (f : String) : Bool :=
  !skips f && convOk env cfg f

/-- A processed (non-skipped) file whose conversion failed. -/
def failF (env : Env) (cfg : Config) (f : String) : Bool :=
  !skips f && !convOk env cfg f

/-- Whether the produced webp file can be stat'ed (`os.path.exists`). -/
def webpSeen (env : Env) (f : String) : Bool :=
  (env.size (webpPath f)).isSome

/-- A file the loop deletes: converted successfully, webp present,
originals not kept, and `os.remove` succeeds. -/
def remF (env : Env) (cfg : Config) (f : String) : Bool :=
  succF env cfg f && webpSeen env f && !cfg.keepOriginal && env.removeOk f

/-- A file whose deletion was attempted and failed. -/
def remFailF (env : Env) (cfg : Config) (f : String) : Bool :=
  succF env cfg f && webpSeen env f && !cfg.keepOriginal && !env.removeOk f

/-- The sum of original sizes over the non-skipped files — accumulated
at line 101 for every processed file regardless of outcome. -/
def origSum (env : Env) (fs : List String) : Nat :=
  ((fs.filter (fun f => !skips f)).map (fun f => (env.size f).getD 0)).sum

/-- The sum of encoded sizes as line 109 accumulates it: over the
successfully converted files whose webp file exists. -/
def newSum (env : Env) (cfg : Config) (fs : List String) : Nat :=
  ((fs.filter (fun f => succF env cfg f && webpSeen env f)).map
    (fun f => (env.size (webpPath f)).getD 0)).sum

/-- The sum of encoded sizes over all successfully converted files (the
spec's wording); equal to `newSum` because a successful conversion
stat'ed the webp file already. -/
def succSum (env : Env) (cfg : Config) (fs : List String) : Nat :=
  ((fs.filter (succF env cfg)).map
    (fun f => (env.size (webpPath f)).getD 0)).sum

/-- The loop state after processing `fs` starting from `st`, in closed
form: each event list extends by the files satisfying the corresponding
predicate, and the totals grow by the corresponding sums. -/
def runState (env : Env) (cfg : Config) (st : BatchState)
    (fs : List String) : BatchState :=
  { skipped := st.skipped ++ fs.filter skips
    succeeded := st.succeeded ++ fs.filter (succF env cfg)
    failed := st.failed ++ fs.filter (failF env cfg)
    removed := st.removed ++ fs.filter (remF env cfg)
    removeFailed := st.removeFailed ++ fs.filter (remFailF env cfg)
    totalOriginal := st.totalOriginal + origSum env fs
    totalNew := st.totalNew + newSum env cfg fs }

/-- The result `batch_convert` produces when the loop does not abort,
in closed form. -/
def resultOf (env : Env) (cfg : Config) (fs : List String) : BatchResult :=
  if fs.isEmpty then
    { imageFiles := [], state := initState, totalRatio := none }
  else
    let st := runState env cfg initState fs
    { imageFiles := fs, state := st,
      totalRatio :=
        if 0 < st.totalOriginal then
          some ((1 - (st.totalNew : ℚ) / (st.totalOriginal : ℚ)) * 100)
        else none }

/-! ## Concrete fixtures

Small concrete environments used to instantiate the theorems below:
witnesses evaluate the embedded script on them. -/

/-- A directory with one eligible image and one ignored text file. -/
def esOK : List DirEntry := [⟨"a.jpg", true⟩, ⟨"b.txt", true⟩]

/-- A benign run: `./a.jpg` is 1000 bytes, decodes as RGB, saves fine,
and the produced `./a.webp` is 400 bytes. -/
def envOK : Env where
  dirExists := true
  listdir := .ok esOK
  size := fun p =>
    if p = "./a.jpg" then some 1000
    else if p = "./a.webp" then some 400
    else none
  decode := fun p => if p = "./a.jpg" then some .RGB else none
  save := fun _ _ _ => some 7
  removeOk := fun _ => true

/-- Default configuration: current directory, quality 85, lossy,
originals kept (`--remove-original` unset). -/
def cfgKeep : Config :=
  { directory := ".", quality := 85, lossless := false, keepOriginal := true }

/-- Same but with `--remove-original` set. -/
def cfgRemove : Config :=
  { directory := ".", quality := 85, lossless := false, keepOriginal := false }

/-- Default command line. -/
def argsOK : Args :=
  { directory := ".", quality := 85, lossless := false, removeOriginal := false }

/-- A command line with an out-of-range quality. -/
def argsBadQ : Args :=
  { directory := ".", quality := 0, lossless := false, removeOriginal := false }

/-- The batch result of `envOK` under `cfgKeep`: one success, with the
ratio expression `(1 - 400/1000) * 100` (which evaluates to `60`)
recorded unreduced so that the whole record is definitionally what the
embedded script computes. -/
def rOK : BatchResult :=
  { imageFiles := ["./a.jpg"],
    state := { skipped := [], succeeded := ["./a.jpg"], failed := [],
               removed := [], removeFailed := [],
               totalOriginal := 1000, totalNew := 400 },
    totalRatio := some ((1 - ((400 : Nat) : ℚ) / ((1000 : Nat) : ℚ)) * 100) }

/-- The batch result of `envOK` under `cfgRemove`: the converted
original is deleted. -/
def rRemove : BatchResult :=
  { imageFiles := ["./a.jpg"],
    state := { skipped := [], succeeded := ["./a.jpg"], failed := [],
               removed := ["./a.jpg"], removeFailed := [],
               totalOriginal := 1000, totalNew := 400 },
    totalRatio := some ((1 - ((400 : Nat) : ℚ) / ((1000 : Nat) : ℚ)) * 100) }

/-- A directory holding two eligible names, the first of which cannot
be stat'ed (a dangling symlink): `os.path.getsize` raises on it. -/
def envSymlink : Env where
  dirExists := true
  listdir := .ok [⟨"a.jpg", true⟩, ⟨"b.jpg", true⟩]
  size := fun p => if p = "./a.jpg" then none else some 100
  decode := fun _ => some .RGB
  save := fun _ _ _ => some 7
  removeOk := fun _ => true

/-- A directory whose only entry is a SUBDIRECTORY named `album.jpg`
(`isFile = false`): `getsize` works on it but decode fails. -/
def envDirTrap : Env where
  dirExists := true
  listdir := .ok [⟨"album.jpg", false⟩]
  size := fun _ => some 4096
  decode := fun _ => none
  save := fun _ _ _ => some 7
  removeOk := fun _ => true

/-- The batch result of `envDirTrap` under `cfgKeep`: the subdirectory
is attempted and fails. -/
def rDirTrap : BatchResult :=
  { imageFiles := ["./album.jpg"],
    state := { skipped := [], succeeded := [], failed := ["./album.jpg"],
               removed := [], removeFailed := [],
               totalOriginal := 4096, totalNew := 0 },
    totalRatio := some ((1 - ((0 : Nat) : ℚ) / ((4096 : Nat) : ℚ)) * 100) }

/-- A directory holding an already-converted `a.webp` next to an
eligible `b.jpg`. -/
def envWebpMix : Env where
  dirExists := true
  listdir := .ok [⟨"a.webp", true⟩, ⟨"b.jpg", true⟩]
  size := fun p =>
    if p = "./b.jpg" then some 1000
    else if p = "./b.webp" then some 400
    else some 1
  decode := fun p => if p = "./b.jpg" then some .RGB else none
  save := fun _ _ _ => some 7
  removeOk := fun _ => true

/-- The batch result of `envWebpMix` under `cfgKeep`: `a.webp` appears
in no list at all — in particular not in `skipped`. -/
def rWebpMix : BatchResult :=
  { imageFiles := ["./b.jpg"],
    state := { skipped := [], succeeded := ["./b.jpg"], failed := [],
               removed := [], removeFailed := [],
               totalOriginal := 1000, totalNew := 400 },
    totalRatio := some ((1 - ((400 : Nat) : ℚ) / ((1000 : Nat) : ℚ)) * 100) }

/-- A run against a missing target directory. -/
def envNoDir : Env where
  dirExists := false
  listdir := .error "unused"
  size := fun _ => none
  decode := fun _ => none
  save := fun _ _ _ => none
  removeOk := fun _ => false

/-- A run against an existing but empty directory. -/
def envEmptyDir : Env where
  dirExists := true
  listdir := .ok []
  size := fun _ => none
  decode := fun _ => none
  save := fun _ _ _ => none
  removeOk := fun _ => false

/-- The empty batch result. -/
def rEmpty : BatchResult :=
  { imageFiles := [], state := initState, totalRatio := none }

/-- A run in which `./a.jpg` decodes and saves fine but is 0 bytes on
disk (its webp is 0 bytes too). -/
def envZero : Env where
  dirExists := true
  listdir := .ok [⟨"a.jpg", true⟩]
  size := fun p =>
    if p = "./a.jpg" then some 0
    else if p = "./a.webp" then some 0
    else none
  decode := fun p => if p = "./a.jpg" then some .RGB else none
  save := fun _ _ _ => some 1
  removeOk := fun _ => true

/-- A run whose `--directory` names an existing regular file: the
existence check passes but `os.listdir` raises `NotADirectoryError`. -/
def envFileAsDir : Env where
  dirExists := true
  listdir := .error "NotADirectoryError"
  size := fun _ => none
  decode := fun _ => none
  save := fun _ _ _ => none
  removeOk := fun _ => false

theorem processFiles_eq_ok (env : Env) (cfg : Config) :
    ∀ (fs : List String) (st : BatchState),
      (∀ f ∈ fs, skips f = false → (env.size f).isSome = true) →
      processFiles env cfg fs st = .ok (runState env cfg st fs) := by
  intro fs
  induction fs with
  | nil =>
    intro st _
    simp [processFiles, runState, origSum, newSum]
  | cons f fs ih =>
    intro st h
    have hrest : ∀ g ∈ fs, skips g = false → (env.size g).isSome = true :=
      fun g hg => h g (List.mem_cons_of_mem f hg)
    cases hs : skips f with
    | true =>
      have h1 : processFile env cfg st f =
          .ok { st with skipped := st.skipped ++ [f] } := by
        simp [processFile, hs]
      show (match processFile env cfg st f with
            | .error e => Except.error e
            | .ok st1 => processFiles env cfg fs st1) =
          .ok (runState env cfg st (f :: fs))
      rw [h1]
      show processFiles env cfg fs _ = _
      rw [ih _ hrest]
      simp [runState, origSum, newSum, List.filter_cons, hs, succF, failF,
        remF, remFailF, List.append_assoc]
    | false =>
      obtain ⟨orig, horig⟩ :=
        Option.isSome_iff_exists.mp (h f (List.mem_cons_self f fs) hs)
      show (match processFile env cfg st f with
            | .error e => Except.error e
            | .ok st1 => processFiles env cfg fs st1) =
          .ok (runState env cfg st (f :: fs))
      cases hc : convOk env cfg f with
      | false =>
        have hc2 : (convert_to_webp env f cfg.quality cfg.lossless).success
            = false := hc
        have h1 : processFile env cfg st f =
            .ok { st with
                  totalOriginal := st.totalOriginal + orig,
                  failed := st.failed ++ [f] } := by
          simp [processFile, hs, horig, hc2]
        rw [h1]
        show processFiles env cfg fs _ = _
        rw [ih _ hrest]
        simp [runState, origSum, newSum, List.filter_cons, hs, hc2, succF,
          failF, remF, remFailF, convOk, horig, List.append_assoc,
          Nat.add_assoc]
      | true =>
        have hc2 : (convert_to_webp env f cfg.quality cfg.lossless).success
            = true := hc
        cases hw : env.size (webpPath f) with
        | none =>
          have h1 : processFile env cfg st f =
              .ok { st with
                    totalOriginal := st.totalOriginal + orig,
                    succeeded := st.succeeded ++ [f] } := by
            simp [processFile, hs, horig, hc2, hw]
          rw [h1]
          show processFiles env cfg fs _ = _
          rw [ih _ hrest]
          simp [runState, origSum, newSum, List.filter_cons, hs, hc2, succF,
            failF, remF, remFailF, webpSeen, convOk, horig, hw,
            List.append_assoc, Nat.add_assoc]
        | some nsz =>
          cases hk : cfg.keepOriginal with
          | true =>
            have h1 : processFile env cfg st f =
                .ok { st with
                      totalOriginal := st.totalOriginal + orig,
                      succeeded := st.succeeded ++ [f],
                      totalNew := st.totalNew + nsz } := by
              simp [processFile, hs, horig, hc2, hw, hk]
            rw [h1]
            show processFiles env cfg fs _ = _
            rw [ih _ hrest]
            simp [runState, origSum, newSum, List.filter_cons, hs, hc2,
              succF, failF, remF, remFailF, webpSeen, convOk, horig, hw, hk,
              List.append_assoc, Nat.add_assoc]
          | false =>
            cases hr : env.removeOk f with
            | true =>
              have h1 : processFile env cfg st f =
                  .ok { st with
                        totalOriginal := st.totalOriginal + orig,
                        succeeded := st.succeeded ++ [f],
                        totalNew := st.totalNew + nsz,
                        removed := st.removed ++ [f] } := by
                simp [processFile, hs, horig, hc2, hw, hk, hr]
              rw [h1]
              show processFiles env cfg fs _ = _
              rw [ih _ hrest]
              simp [runState, origSum, newSum, List.filter_cons, hs, hc2,
                succF, failF, remF, remFailF, webpSeen, convOk, horig, hw,
                hk, hr, List.append_assoc, Nat.add_assoc]
            | false =>
              have h1 : processFile env cfg st f =
                  .ok { st with
                        totalOriginal := st.totalOriginal + orig,
                        succeeded := st.succeeded ++ [f],
                        totalNew := st.totalNew + nsz,
                        removeFailed := st.removeFailed ++ [f] } := by
                simp [processFile, hs, horig, hc2, hw, hk, hr]
              rw [h1]
              show processFiles env cfg fs _ = _
              rw [ih _ hrest]
              simp [runState, origSum, newSum, List.filter_cons, hs, hc2,
                succF, failF, remF, remFailF, webpSeen, convOk, horig, hw,
                hk, hr, List.append_assoc, Nat.add_assoc]

theorem processFiles_ok_sizes (env : Env) (cfg : Config) :
    ∀ (fs : List String) (st st' : BatchState),
      processFiles env cfg fs st = .ok st' →
      ∀ f ∈ fs, skips f = false → (env.size f).isSome = true := by
  intro fs
  induction fs with
  | nil => intro st st' _ f hf; simp at hf
  | cons g fs ih =>
    intro st st' hok f hf hsk
    cases hpf : processFile env cfg st g with
    | error e => simp [processFiles, hpf] at hok
    | ok st1 =>
      have hok1 : processFiles env cfg fs st1 = .ok st' := by
        simpa [processFiles, hpf] using hok
      rcases List.mem_cons.mp hf with hfg | hmem
      · subst hfg
        cases hsz : env.size f with
        | none => simp [processFile, hsk, hsz] at hpf
        | some o => simp [hsz]
      · exact ih st1 st' hok1 f hmem hsk

theorem batch_ok_shape (env : Env) (cfg : Config) (r : BatchResult)
    (hb : batch_convert env cfg = .ok r) :
    ∃ es, env.listdir = .ok es ∧
      r = resultOf env cfg (imageFilesOf cfg es) := by
  cases hl : env.listdir with
  | error e => simp [batch_convert, hl] at hb
  | ok es =>
    refine ⟨es, rfl, ?_⟩
    cases hemp : (imageFilesOf cfg es).isEmpty with
    | true =>
      simp [batch_convert, hl, hemp] at hb
      simp [resultOf, hemp, ← hb]
    | false =>
      cases hpf : processFiles env cfg (imageFilesOf cfg es) initState with
      | error e => simp [batch_convert, hl, hemp, hpf] at hb
      | ok st =>
        have hsizes :=
          processFiles_ok_sizes env cfg (imageFilesOf cfg es) initState st hpf
        have heq := processFiles_eq_ok env cfg (imageFilesOf cfg es) initState hsizes
        rw [hpf] at heq
        have hst : st = runState env cfg initState (imageFilesOf cfg es) := by
          simpa using heq
        simp [batch_convert, hl, hemp, hpf] at hb
        rw [← hb, resultOf, hemp, ← hst]
        simp

/-! ## No eligible name ends in `.webp` -/

theorem suffix_disjoint {e1 e2 s : List Char} (h1 : e1 <:+ s)
    (h2 : e2 <:+ s) (h12 : e1.isSuffixOf e2 = false)
    (h21 : e2.isSuffixOf e1 = false) : False := by
  obtain ⟨a1, ha1⟩ := h1
  obtain ⟨a2, ha2⟩ := h2
  have h := ha1.trans ha2.symm
  rcases List.append_eq_append_iff.mp h with ⟨a, _, hsuf⟩ | ⟨c, _, hsuf⟩
  · exact absurd (List.isSuffixOf_iff_suffix.mpr ⟨a, hsuf.symm⟩)
      (by simp [h21])
  · exact absurd (List.isSuffixOf_iff_suffix.mpr ⟨c, hsuf.symm⟩)
      (by simp [h12])

theorem skips_joinPath_eligible {d : String} {e : DirEntry}
    (he : codeEligible e = true) : skips (joinPath d e.name) = false := by
  rw [codeEligible, List.any_eq_true] at he
  obtain ⟨ext, hmem, hsuf⟩ := he
  have h1 : ext.data <:+ (pyLower e.name).data :=
    List.isSuffixOf_iff_suffix.mp hsuf
  have h2 : (pyLower e.name).data <:+ (pyLower (joinPath d e.name)).data := by
    simp only [pyLower, joinPath, String.data_append, List.map_append]
    exact List.suffix_append _ _
  have hdis : ∀ x ∈ supportedFormats,
      x.data.isSuffixOf ".webp".data = false ∧
      ".webp".data.isSuffixOf x.data = false := by decide
  cases hw : skips (joinPath d e.name) with
  | false => rfl
  | true =>
    rw [skips, pyEndsWith] at hw
    have hwebp : ".webp".data <:+ (pyLower (joinPath d e.name)).data :=
      List.isSuffixOf_iff_suffix.mp hw
    exact (suffix_disjoint (h1.trans h2) hwebp (hdis ext hmem).1
      (hdis ext hmem).2).elim

theorem imageFiles_not_skips (cfg : Config) (es : List DirEntry) :
    ∀ f ∈ imageFilesOf cfg es, skips f = false := by
  intro f hf
  rw [imageFilesOf, List.mem_map] at hf
  obtain ⟨e, he, rfl⟩ := hf
  exact skips_joinPath_eligible (List.mem_filter.mp he).2

/-! ## A successful conversion stat'ed the webp file -/

theorem convert_success_size (env : Env) (f : String) (q : Int) (l : Bool)
    (h : (convert_to_webp env f q l).success = true) :
    (env.size (webpPath f)).isSome = true := by
  cases hd : env.decode f with
  | none => simp [convert_to_webp, hd] at h
  | some m =>
    cases hsv : env.save (webpPath f) (normalizeMode m) (saveParamsFor l q) with
    | none => simp [convert_to_webp, hd, hsv] at h
    | some w =>
      cases hi : env.size f with
      | none => simp [convert_to_webp, hd, hsv, hi] at h
      | some o =>
        cases ho : env.size (webpPath f) with
        | none => simp [convert_to_webp, hd, hsv, hi, ho] at h
        | some n => simp [ho]

theorem succF_webpSeen (env : Env) (cfg : Config) (f : String)
    (h : succF env cfg f = true) : webpSeen env f = true := by
  have h2 := (Bool.and_eq_true _ _).mp (by rw [succF] at h; exact h)
  rw [convOk] at h2
  rw [webpSeen]
  exact convert_success_size env f cfg.quality cfg.lossless h2.2

theorem newSum_eq_succSum (env : Env) (cfg : Config) (fs : List String) :
    newSum env cfg fs = succSum env cfg fs := by
  rw [newSum, succSum]
  have hfil : fs.filter (fun f => succF env cfg f && webpSeen env f) =
      fs.filter (succF env cfg) := by
    apply List.filter_congr
    intro f _
    cases hsucc : succF env cfg f with
    | false => simp
    | true =>
      have hconv : (convert_to_webp env f cfg.quality cfg.lossless).success
          = true := by
        have := (Bool.and_eq_true _ _).mp (by rw [succF] at hsucc; exact hsucc)
        rw [convOk] at this
        exact this.2
      have hsz := convert_success_size env f cfg.quality cfg.lossless hconv
      simp [webpSeen, hsz]
  rw [hfil]

/-! ## The claims -/

/-- C2: for every decoded image, the single-file converter normalizes
the pixel-buffer color mode by a strict two-way branch: every decoded
mode with an alpha channel is normalized to RGBA, every decoded mode
without an alpha channel that is not already RGB is normalized to RGB
(RGB itself is left unchanged, i.e. stays RGB), and no normalization
target other than RGBA and RGB exists. -/
theorem normalize_two_way_branch :
    ∀ m : Mode,
      normalizeMode m = (if m.hasAlpha then Mode.RGBA else Mode.RGB) := by
  intro m
  cases m <;> rfl

/-- C7: the process exits 0 when the batch ran to completion (however
many individual files failed, and also on an empty eligible set), exits
1 when the target directory does not exist — checked before any scan,
with no batch work done — and exits 2 (argparse usage error) when the
quality argument is out of range. -/
theorem exit_codes (env : Env) (a : Args) (r : BatchResult) :
    (validQuality a.quality = false → main env a = (.exited 2, none)) ∧
    (validQuality a.quality = true → env.dirExists = false →
      main env a = (.exited 1, none)) ∧
    (validQuality a.quality = true → env.dirExists = true →
      batch_convert env (cfgOf a) = .ok r →
      main env a = (.exited 0, some r)) := by
  refine ⟨fun h => ?_, fun h1 h2 => ?_, fun h1 h2 h3 => ?_⟩
  · simp [main, h]
  · simp [main, h1, h2]
  · simp [main, h1, h2, h3]

/-- Witness for C7: concrete runs hitting each exit status — usage
error on quality 0, status 1 on a missing directory (whose listing is
never consulted), status 0 on a normal run, and status 0 again on an
empty directory. -/
theorem exit_codes_witness :
    main envOK argsBadQ = (.exited 2, none) ∧
    main envNoDir argsOK = (.exited 1, none) ∧
    main envOK argsOK = (.exited 0, some rOK) ∧
    main envEmptyDir argsOK = (.exited 0, some rEmpty) :=
  ⟨(exit_codes envOK argsBadQ rOK).1 (by decide),
   (exit_codes envNoDir argsOK rOK).2.1 (by decide) (by decide),
   (exit_codes envOK argsOK rOK).2.2 (by decide) (by decide) rfl,
   (exit_codes envEmptyDir argsOK rEmpty).2.2 (by decide) (by decide) rfl⟩

/-- C9: with lossless set, the converter's behavior is identical for
any two quality values — the lossless save passes no quality at all —
while the lossy branch passes the requested quality together with the
encoder effort pinned to the highest available level (method 6 of the
0..6 scale). -/
theorem lossless_ignores_quality :
    (∀ (env : Env) (input : String) (q1 q2 : Int),
      convert_to_webp env input q1 true = convert_to_webp env input q2 true) ∧
    (∀ q : Int, saveParamsFor true q =
      { lossless := true, quality := none, method := none }) ∧
    (∀ q : Int, saveParamsFor false q =
      { lossless := false, quality := some q, method := some webpMethodMax }) ∧
    webpMethodLevels.all (fun l => l ≤ webpMethodMax) = true ∧
    webpMethodMax ∈ webpMethodLevels :=
  ⟨fun _ _ _ _ => rfl, fun _ => rfl, fun _ => rfl, by decide, by decide⟩

/-- C10: when the --directory argument names an existing path that is
not a directory, the pre-scan existence check passes, the directory
listing raises, and the run aborts with an uncaught exception — a
different outcome from the directory-missing exit status 1 — with no
batch summary produced. -/
theorem non_directory_aborts (env : Env) (a : Args) (e : String) (n : Nat)
    (hq : validQuality a.quality = true)
    (hd : env.dirExists = true)
    (hl : env.listdir = .error e) :
    main env a = (.uncaught e, none) ∧
    RunOutcome.uncaught e ≠ RunOutcome.exited n := by
  constructor
  · simp [main, hq, hd, batch_convert, hl]
  · intro h
    exact RunOutcome.noConfusion h

/-- Witness for C10: a run whose target is an existing regular file. -/
theorem non_directory_aborts_witness :
    main envFileAsDir argsOK = (.uncaught "NotADirectoryError", none) ∧
    RunOutcome.uncaught "NotADirectoryError" ≠ RunOutcome.exited 1 :=
  non_directory_aborts envFileAsDir argsOK "NotADirectoryError" 1
    (by decide) (by decide) rfl

/-- C8 counterexample: a file whose decode, encode and write all
succeed but whose on-disk size is 0 bytes.  The claim says the ratio is
"not computed, with no division performed"; in fact the ratio
expression is evaluated, the division by the zero original size raises
ZeroDivisionError (second conjunct shows the modelled division
erroring), the per-file handler catches it, and the whole conversion is
reported as failed even though the webp file was written. -/
theorem zero_size_division_cex :
    convert_to_webp envZero "./a.jpg" 85 false =
      { success := false, ratio := none, written := some 1 } ∧
    pyDiv 0 0 = .error "ZeroDivisionError" :=
  ⟨rfl, by decide⟩

/-- C8 (amended): when the original file's byte size is 0, the ratio
division is still attempted; the resulting ZeroDivisionError is caught
by the per-file exception handler, so no ratio is produced and the
conversion — although the output file was written — is reported as
failed. -/
theorem zero_size_conversion_fails (env : Env) (f : String) (q : Int)
    (l : Bool) (m : Mode) (w n : Nat)
    (hd : env.decode f = some m)
    (hsv : env.save (webpPath f) (normalizeMode m) (saveParamsFor l q) = some w)
    (h0 : env.size f = some 0)
    (hn : env.size (webpPath f) = some n) :
    convert_to_webp env f q l =
      { success := false, ratio := none, written := some w } := by
  simp [convert_to_webp, hd, hsv, h0, hn, pyDiv]

/-- Witness for C8: the zero-byte run above, through the theorem. -/
theorem zero_size_conversion_fails_witness :
    convert_to_webp envZero "./a.jpg" 85 false =
      { success := false, ratio := none, written := some 1 } :=
  zero_size_conversion_fails envZero "./a.jpg" 85 false .RGB 1 0
    (by decide) (by decide) (by decide) (by decide)

/-- C1 counterexample: two eligible files, the first a dangling symlink
that cannot be stat'ed.  The driver's own `os.path.getsize` at line 100
runs outside any exception handler, so the single failing size
measurement aborts the whole batch (`Except.error`): the second
eligible file (second conjunct shows both were eligible) is never
attempted and no outcome is recorded for either, contradicting the
claim that a size-measurement failure cannot abort the batch. -/
theorem batch_abort_cex :
    batch_convert envSymlink cfgKeep = .error "OSError: getsize ./a.jpg" ∧
    imageFilesOf cfgKeep [⟨"a.jpg", true⟩, ⟨"b.jpg", true⟩] =
      ["./a.jpg", "./b.jpg"] :=
  ⟨rfl, by decide⟩

/-- C1 (amended): exceptions inside the single-file converter (decode,
encode, write, its stat calls, the zero-size division) and deletion
failures never abort the batch — provided the batch driver's own
pre-conversion size measurement succeeds for every eligible file, the
batch runs to completion and every eligible file's outcome is recorded
as skipped, succeeded or failed.  A failure of that driver-level
`getsize` itself (line 100, outside any handler) aborts the batch, as
the counterexample shows. -/
theorem batch_records_all_outcomes (env : Env) (cfg : Config)
    (es : List DirEntry) (f : String)
    (hl : env.listdir = .ok es)
    (hs : ∀ g ∈ imageFilesOf cfg es, skips g = false →
      (env.size g).isSome = true) :
    batch_convert env cfg = .ok (resultOf env cfg (imageFilesOf cfg es)) ∧
    (f ∈ imageFilesOf cfg es →
      f ∈ (resultOf env cfg (imageFilesOf cfg es)).state.skipped ∨
      f ∈ (resultOf env cfg (imageFilesOf cfg es)).state.succeeded ∨
      f ∈ (resultOf env cfg (imageFilesOf cfg es)).state.failed) := by
  constructor
  · cases hemp : (imageFilesOf cfg es).isEmpty with
    | true => simp [batch_convert, hl, hemp, resultOf]
    | false =>
      have hpf := processFiles_eq_ok env cfg (imageFilesOf cfg es) initState hs
      simp [batch_convert, hl, hemp, hpf, resultOf]
  · intro hf
    cases hemp : (imageFilesOf cfg es).isEmpty with
    | true =>
      rw [List.isEmpty_iff.mp hemp] at hf
      cases hf
    | false =>
      simp only [resultOf, hemp, Bool.false_eq_true, if_false, runState,
        initState, List.nil_append]
      cases hsk : skips f with
      | true => exact Or.inl (List.mem_filter.mpr ⟨hf, hsk⟩)
      | false =>
        cases hcv : convOk env cfg f with
        | true =>
          exact Or.inr (Or.inl (List.mem_filter.mpr ⟨hf, by
            simp [succF, hsk, hcv]⟩))
        | false =>
          exact Or.inr (Or.inr (List.mem_filter.mpr ⟨hf, by
            simp [failF, hsk, hcv]⟩))

/-- Witness for C1 (amended): the benign run records its one eligible
file's outcome. -/
theorem batch_records_all_outcomes_witness :
    "./a.jpg" ∈ (resultOf envOK cfgKeep (imageFilesOf cfgKeep esOK)).state.skipped ∨
    "./a.jpg" ∈ (resultOf envOK cfgKeep (imageFilesOf cfgKeep esOK)).state.succeeded ∨
    "./a.jpg" ∈ (resultOf envOK cfgKeep (imageFilesOf cfgKeep esOK)).state.failed :=
  (batch_records_all_outcomes envOK cfgKeep esOK "./a.jpg" rfl
    (by decide)).2 (by decide)

/-- C3: with --remove-original unset no source file is ever removed
(and no deletion is even attempted), whatever the conversion outcomes;
with it set, a source file is removed exactly when its conversion
succeeded and the `os.remove` call itself succeeds, and a failing
`os.remove` leaves the file recorded as a successful conversion — the
deletion failure is reported separately and does not change the
success status. -/
theorem removal_iff_success (env : Env) (cfg : Config) (r : BatchResult)
    (f : String) (hb : batch_convert env cfg = .ok r) :
    (cfg.keepOriginal = true →
      r.state.removed = [] ∧ r.state.removeFailed = []) ∧
    (cfg.keepOriginal = false →
      ((f ∈ r.state.removed ↔
        f ∈ r.state.succeeded ∧ env.removeOk f = true) ∧
       (f ∈ r.state.removeFailed →
        f ∈ r.state.succeeded ∧ env.removeOk f = false))) := by
  obtain ⟨es, hl, hr⟩ := batch_ok_shape env cfg r hb
  subst hr
  cases hemp : (imageFilesOf cfg es).isEmpty with
  | true =>
    refine ⟨fun _ => ?_, fun _ => ⟨?_, ?_⟩⟩ <;> simp [resultOf, hemp, initState]
  | false =>
    constructor
    · intro hk
      constructor
      · simp only [resultOf, hemp, Bool.false_eq_true, if_false, runState,
          initState, List.nil_append]
        rw [List.filter_eq_nil_iff]
        intro a _
        simp [remF, hk]
      · simp only [resultOf, hemp, Bool.false_eq_true, if_false, runState,
          initState, List.nil_append]
        rw [List.filter_eq_nil_iff]
        intro a _
        simp [remFailF, hk]
    · intro hk
      simp only [resultOf, hemp, Bool.false_eq_true, if_false, runState,
        initState, List.nil_append]
      refine ⟨⟨fun hmem => ?_, fun hc => ?_⟩, fun hmem => ?_⟩
      · obtain ⟨hin, hp⟩ := List.mem_filter.mp hmem
        rw [remF, hk] at hp
        simp only [Bool.not_false, Bool.and_true, Bool.and_eq_true] at hp
        exact ⟨List.mem_filter.mpr ⟨hin, hp.1.1⟩, hp.2⟩
      · obtain ⟨hsucc, hrok⟩ := hc
        obtain ⟨hin, hsF⟩ := List.mem_filter.mp hsucc
        refine List.mem_filter.mpr ⟨hin, ?_⟩
        have hws := succF_webpSeen env cfg f hsF
        simp [remF, hk, hsF, hws, hrok]
      · obtain ⟨hin, hp⟩ := List.mem_filter.mp hmem
        rw [remFailF, hk] at hp
        simp only [Bool.not_false, Bool.and_true, Bool.and_eq_true,
          Bool.not_eq_eq_eq_not, Bool.not_true] at hp
        exact ⟨List.mem_filter.mpr ⟨hin, hp.1.1⟩, hp.2⟩

/-- Witness for C3: in the remove-original run the converted file is
deleted (membership produced through the theorem's iff). -/
theorem removal_iff_success_witness :
    "./a.jpg" ∈ rRemove.state.removed :=
  (((removal_iff_success envOK cfgRemove rRemove "./a.jpg" rfl).2
    (by decide)).1).mpr ⟨by decide, by decide⟩

/-- C4: on a completed batch with a nonempty eligible set, the reported
total compression ratio is `(1 - Σ encoded / Σ original) * 100` with
the original-size sum taken over ALL non-skipped eligible files
(regardless of per-file outcome) and the encoded-size sum over the
succeeded files only; the ratio is omitted exactly when the
original-size sum is 0. -/
theorem total_ratio_formula (env : Env) (cfg : Config) (r : BatchResult)
    (hb : batch_convert env cfg = .ok r) (hne : r.imageFiles ≠ []) :
    r.totalRatio =
      (if 0 < origSum env r.imageFiles then
        some ((1 - (succSum env cfg r.imageFiles : ℚ) /
          (origSum env r.imageFiles : ℚ)) * 100)
      else none) := by
  obtain ⟨es, hl, hr⟩ := batch_ok_shape env cfg r hb
  subst hr
  cases hemp : (imageFilesOf cfg es).isEmpty with
  | true => simp [resultOf, hemp] at hne
  | false =>
    simp [resultOf, hemp, runState, initState, newSum_eq_succSum]

/-- Witness for C4: the benign run's reported ratio evaluates to 60
percent, through the theorem's formula. -/
theorem total_ratio_formula_witness : rOK.totalRatio = some 60 := by
  have h := total_ratio_formula envOK cfgKeep rOK rfl (by decide)
  rw [h]
  rw [show origSum envOK rOK.imageFiles = 1000 from rfl,
    show succSum envOK cfgKeep rOK.imageFiles = 400 from rfl]
  norm_num

/-- C5 counterexample: a SUBDIRECTORY named `album.jpg`.  The scan
admits it (`codeEligible`), although the claim's eligible set — files
only — excludes it (`specEligible`); the batch then attempts it and
records a failure.  The scan checks only the lowercased name's suffix
and never asks whether the entry is a regular file. -/
theorem eligible_includes_non_file_cex :
    codeEligible ⟨"album.jpg", false⟩ = true ∧
    specEligible ⟨"album.jpg", false⟩ = false ∧
    (batch_convert envDirTrap cfgKeep).map (fun r => r.imageFiles) =
      .ok ["./album.jpg"] ∧
    (batch_convert envDirTrap cfgKeep).map (fun r => r.state.failed) =
      .ok ["./album.jpg"] :=
  ⟨by decide, by decide, rfl, rfl⟩

/-- C5 (amended): the eligible set contains exactly the directory
entries — of any type, subdirectories included, which are still not
descended into — whose name, lowercased, ends with one of the seven
suffixes .jpg, .jpeg, .png, .bmp, .gif, .tiff, .tif; matching is by
name suffix, not by a parsed extension, and whether the entry is a
regular file is never checked. -/
theorem eligible_set_by_name_suffix (env : Env) (cfg : Config)
    (es : List DirEntry) (r : BatchResult) (f : String)
    (hl : env.listdir = .ok es)
    (hb : batch_convert env cfg = .ok r) :
    f ∈ r.imageFiles ↔
      ∃ e, e ∈ es ∧ f = joinPath cfg.directory e.name ∧
        ∃ ext, ext ∈ supportedFormats ∧
          pyEndsWith (pyLower e.name) ext = true := by
  obtain ⟨es2, hl2, hr⟩ := batch_ok_shape env cfg r hb
  rw [hl] at hl2
  have hes : es = es2 := by
    cases hl2
    rfl
  subst hes
  subst hr
  have himg : (resultOf env cfg (imageFilesOf cfg es)).imageFiles =
      imageFilesOf cfg es := by
    cases hemp : (imageFilesOf cfg es).isEmpty with
    | true =>
      simp only [resultOf, hemp, if_true]
      exact (List.isEmpty_iff.mp hemp).symm
    | false => simp [resultOf, hemp]
  rw [himg, imageFilesOf]
  simp only [List.mem_map, List.mem_filter, codeEligible, List.any_eq_true]
  constructor
  · rintro ⟨e, ⟨he, ext, hm, hsuf⟩, rfl⟩
    exact ⟨e, he, rfl, ext, hm, hsuf⟩
  · rintro ⟨e, he, rfl, ext, hm, hsuf⟩
    exact ⟨e, ⟨he, ext, hm, hsuf⟩, rfl⟩

/-- Witness for C5 (amended): the subdirectory entry is in the eligible
set, produced through the theorem's membership characterization. -/
theorem eligible_set_by_name_suffix_witness :
    "./album.jpg" ∈ rDirTrap.imageFiles :=
  (eligible_set_by_name_suffix envDirTrap cfgKeep [⟨"album.jpg", false⟩]
    rDirTrap "./album.jpg" rfl rfl).mpr
    ⟨⟨"album.jpg", false⟩, by decide, by decide, ".jpg", by decide, by decide⟩

/-- C6 counterexample: a directory holding `a.webp` and `b.jpg`.  The
batch completes with `a.webp` absent from the eligible set, absent from
every outcome list, and — against the claim — NOT counted as skipped:
the skip list stays empty, because the extension filter already
excluded the `.webp` name before the loop's skip branch could see it. -/
theorem webp_not_counted_skipped_cex :
    (batch_convert envWebpMix cfgKeep).map
      (fun r => (r.imageFiles, r.state.skipped, r.state.succeeded,
        r.state.failed)) =
      .ok (["./b.jpg"], [], ["./b.jpg"], []) :=
  rfl

/-- C6 (amended): a file named `*.webp` is never passed to the
converter and is not counted among the failed or succeeded files — but
neither is it counted as skipped: it is excluded from the eligible set
by the extension filter itself, so the in-loop skip branch never fires
and the skip list of every completed batch is empty.  (The last
conjunct transfers the `.webp` name suffix to the joined path, showing
such an entry could only ever sit in the always-empty skip list.) -/
theorem webp_excluded_not_counted (env : Env) (cfg : Config)
    (r : BatchResult) (f : String) (d n : String)
    (hb : batch_convert env cfg = .ok r) :
    (f ∈ r.imageFiles → skips f = false) ∧
    r.state.skipped = [] ∧
    (f ∈ r.state.succeeded → f ∈ r.imageFiles) ∧
    (f ∈ r.state.failed → f ∈ r.imageFiles) ∧
    (pyEndsWith (pyLower n) ".webp" = true →
      skips (joinPath d n) = true) := by
  obtain ⟨es, hl, hr⟩ := batch_ok_shape env cfg r hb
  subst hr
  have himg : (resultOf env cfg (imageFilesOf cfg es)).imageFiles =
      imageFilesOf cfg es := by
    cases hemp : (imageFilesOf cfg es).isEmpty with
    | true =>
      simp only [resultOf, hemp, if_true]
      exact (List.isEmpty_iff.mp hemp).symm
    | false => simp [resultOf, hemp]
  refine ⟨?_, ?_, ?_, ?_, ?_⟩
  · intro hf
    rw [himg] at hf
    exact imageFiles_not_skips cfg es f hf
  · cases hemp : (imageFilesOf cfg es).isEmpty with
    | true => simp [resultOf, hemp, initState]
    | false =>
      simp only [resultOf, hemp, Bool.false_eq_true, if_false, runState,
        initState, List.nil_append]
      rw [List.filter_eq_nil_iff]
      intro a ha
      simp [imageFiles_not_skips cfg es a ha]
  · intro hf
    rw [himg]
    cases hemp : (imageFilesOf cfg es).isEmpty with
    | true =>
      rw [resultOf, hemp] at hf
      simp [initState] at hf
    | false =>
      simp only [resultOf, hemp, Bool.false_eq_true, if_false, runState,
        initState, List.nil_append] at hf
      exact List.mem_of_mem_filter hf
  · intro hf
    rw [himg]
    cases hemp : (imageFilesOf cfg es).isEmpty with
    | true =>
      rw [resultOf, hemp] at hf
      simp [initState] at hf
    | false =>
      simp only [resultOf, hemp, Bool.false_eq_true, if_false, runState,
        initState, List.nil_append] at hf
      exact List.mem_of_mem_filter hf
  · intro h
    rw [skips, pyEndsWith]
    apply List.isSuffixOf_iff_suffix.mpr
    have h1 : ".webp".data <:+ (pyLower n).data :=
      List.isSuffixOf_iff_suffix.mp (by rw [pyEndsWith] at h; exact h)
    have h2 : (pyLower n).data <:+ (pyLower (joinPath d n)).data := by
      simp only [pyLower, joinPath, String.data_append, List.map_append]
      exact List.suffix_append _ _
    exact h1.trans h2

/-- Witness for C6 (amended): the completed mixed run has an empty skip
list, and the `a.webp` name joins to a path the skip test recognizes —
so it could only have been skipped, yet nothing was. -/
theorem webp_excluded_not_counted_witness :
    rWebpMix.state.skipped = [] ∧
    skips (joinPath "." "a.webp") = true :=
  ⟨(webp_excluded_not_counted envWebpMix cfgKeep rWebpMix "./b.jpg" "."
      "a.webp" rfl).2.1,
   (webp_excluded_not_counted envWebpMix cfgKeep rWebpMix "./b.jpg" "."
      "a.webp" rfl).2.2.2.2 (by decide)⟩

end ConvertToWebp
